import Mathlib

/-!
Verification of the comedy actor runtime against its specification.

The definitions below are a shallow embedding of the relevant parts of the
source files:

* lib/actor.js          (class Actor: lifecycle, forwarding, destroy, metrics)
* lib/actor-system.js   (static ActorSystem.default)
* lib/forked-actor.js   (class ForkedActor: correlation ids, timeouts, marshalling)

Stateful code is modelled by explicit state passing; promise chains are
modelled by the sequence of events they perform; machine integers are Nat.
-/

/-- Lifecycle states of an actor, as used by the source code
(strings "new", "ready", "crashed", "destroying", "destroyed"). -/
inductive ActorState where
  | new
  | ready
  | crashed
  | destroying
  | destroyed
deriving DecidableEq, Repr

/-- Error messages produced by Actor._notReadyErrorPromise.  The source
switches on this.getState(); the default branch interpolates the state name
(only the "ready" state is left for it among the modelled states). -/
def notReadyErrorMessage : ActorState → String
  | ActorState.new => "Actor has not yet been initialized."
  | ActorState.crashed => "Actor crashed, no interaction possible."
  | ActorState.destroying => "destroy() has been called for this actor, no further interaction possible"
  | ActorState.destroyed => "destroy() has been called for this actor, no further interaction possible"
  | ActorState.ready => "Actor cannot accept messages, because it is in \"ready\" state."

/-- Substring check on character lists: pat occurs contiguously in l. -/
def listContainsSub : List Char → List Char → Bool
  | _, [] => true
  | [], _ :: _ => false
  | c :: rest, p :: ps => (p :: ps).isPrefixOf (c :: rest) || listContainsSub rest (p :: ps)

/-- Substring check on strings. -/
def strContainsSub (s pat : String) : Bool :=
  listContainsSub s.toList pat.toList

/-- Entry of Actor.forwardList: a topic matcher is either a plain string
(compared by equality) or a regular expression (modelled by its test
function on topics, mirroring topic.match(fwTopic)). -/
inductive Matcher where
  | str (s : String)
  | regex (test : String → Bool)

/-- Match test performed inside Actor._checkForward on a single
forward-list item. -/
def matcherMatches : Matcher → String → Bool
  | Matcher.str s, topic => s == topic
  | Matcher.regex test, topic => test topic

/-- State of a single actor relevant to message dispatch.  Target actors
(forward-list targets, the parent proxy stored in forwardAllUnknown) are
identified by numeric ids.  definitionHasHandler models the truthiness of
this.definition[topic]. -/
structure Actor where
  definitionHasHandler : String → Bool
  forwardAllUnknown : Option Nat
  forwardList : List (Matcher × Nat)
  state : ActorState

/-- Actor._checkForward from the source: forward an unknown topic if
configured, otherwise take the first matching forward-list entry. -/
def Actor.checkForward (a : Actor) (topic : String) : Option Nat :=
  if a.forwardAllUnknown.isSome && !(a.definitionHasHandler topic) then a.forwardAllUnknown
  else
    match a.forwardList.find? (fun item => matcherMatches item.1 topic) with
    | some item => some item.2
    | none => none

/-- Result of Actor.send / Actor.sendAndReceive: the returned promise is
rejected with an error, or the call is delegated to another actor with the
variadic arguments preserved (fwActor.send.apply(fwActor, arguments)), or
it reaches the mode-specific send0 / sendAndReceive0. -/
inductive SendResult (α : Type) where
  | rejected (errMsg : String)
  | forwarded (target : Nat) (topic : String) (args : List α)
  | dispatched (topic : String) (args : List α)
deriving DecidableEq, Repr

/-- Actor.send from the source. -/
def Actor.send {α : Type} (a : Actor) (topic : String) (args : List α) : SendResult α :=
  if a.state != ActorState.ready then SendResult.rejected (notReadyErrorMessage a.state)
  else
    match a.checkForward topic with
    | some fw => SendResult.forwarded fw topic args
    | none => SendResult.dispatched topic args

/-- Actor.sendAndReceive from the source (identical dispatch structure to
Actor.send, delegating to sendAndReceive0 at the end). -/
def Actor.sendAndReceive {α : Type} (a : Actor) (topic : String) (args : List α) : SendResult α :=
  if a.state != ActorState.ready then SendResult.rejected (notReadyErrorMessage a.state)
  else
    match a.checkForward topic with
    | some fw => SendResult.forwarded fw topic args
    | none => SendResult.dispatched topic args

/-- Specification-side reading of first-match forwarding: the target of the
first forward-list entry, in insertion order, whose matcher matches. -/
def firstForwardTarget : List (Matcher × Nat) → String → Option Nat
  | [], _ => none
  | (m, r) :: rest, topic =>
    if matcherMatches m topic then some r else firstForwardTarget rest topic

/-- Tree of actors: each node carries its id and its children in creation
order (the order of Actor.childPromises). -/
inductive ActorTree where
  | node (id : Nat) (children : List ActorTree)

/-- Id of the root of a tree. -/
def ActorTree.rootId : ActorTree → Nat
  | ActorTree.node i _ => i

/-- Children of the root of a tree. -/
def ActorTree.children : ActorTree → List ActorTree
  | ActorTree.node _ cs => cs

/-- Observable events performed by Actor.destroy: completion of the actor
user destroy hook (this.destroy0()) and the final transition where
_setState("destroyed") runs and the destroyed event is emitted. -/
inductive DestroyEvent where
  | hook (id : Nat)
  | destroyedEvent (id : Nat)
deriving DecidableEq, Repr

mutual
/-- Event sequence of Actor.destroy from the source: destroy every child
(P.map invokes child.destroy() over childPromises in forward array order
and awaits them all), then run this.destroy0(), then set state destroyed
and emit the destroyed event. -/
def destroyTrace : ActorTree → List DestroyEvent
  | ActorTree.node i cs =>
    destroyTraceList cs ++ [DestroyEvent.hook i, DestroyEvent.destroyedEvent i]

/-- Concatenated destroy traces of a child list, in list order.  This is a
linearization of the child destructions, which P.map runs concurrently: it
is faithful for every interleaving-invariant projection (event membership,
the order of events of one actor, and all child events preceding the
parent hook, since the parent chain awaits every child promise), and for
the relative order of the destroy hooks of children that are leaves, whose
single-hook chains are started in array order and scheduled FIFO.  It is
NOT faithful for the relative order of inner events of sibling subtrees of
depth two or more, and no theorem below asserts such an order. -/
def destroyTraceList : List ActorTree → List DestroyEvent
  | [] => []
  | c :: rest => destroyTrace c ++ destroyTraceList rest
end

mutual
/-- Proper descendants of a tree root. -/
def ActorTree.descendants : ActorTree → List ActorTree
  | ActorTree.node _ cs => descendantsList cs

/-- Members of a child list together with all of their descendants. -/
def descendantsList : List ActorTree → List ActorTree
  | [] => []
  | c :: rest => c :: (ActorTree.descendants c ++ descendantsList rest)
end

/-- Ids of the destroy-hook events of a trace, in order. -/
def hookIds (l : List DestroyEvent) : List Nat :=
  l.filterMap (fun e =>
    match e with
    | DestroyEvent.hook i => some i
    | _ => none)

/-- Memoization cell this.destroyPromise of a single actor: the cached
event trace of the first destroy() call, when one has happened. -/
structure ActorDestroyState where
  destroyPromise : Option (List DestroyEvent)

/-- Actor.destroy from the source: if this.destroyPromise is set, return it
unchanged and perform nothing; otherwise perform the destruction trace,
cache it and return it.  Result: (returned promise value, events newly
performed, new memoization state). -/
def destroyCall (t : ActorTree) (s : ActorDestroyState) :
    List DestroyEvent × List DestroyEvent × ActorDestroyState :=
  match s.destroyPromise with
  | some p => (p, [], s)
  | none => (destroyTrace t, destroyTrace t, ⟨some (destroyTrace t)⟩)

/-- Iterated calls to destroy() on the same actor: list of
(returned promise, newly performed events) per call, plus final state. -/
def iterateDestroy (t : ActorTree) :
    Nat → ActorDestroyState → List (List DestroyEvent × List DestroyEvent) × ActorDestroyState
  | 0, s => ([], s)
  | Nat.succ n, s =>
    let r := destroyCall t s
    let rest := iterateDestroy t n r.2.2
    ((r.1, r.2.1) :: rest.1, rest.2)

/-- Metrics values: a number or a nested JS object kept as an association
list in insertion order. -/
inductive MetricsData where
  | leaf (n : Int)
  | table (entries : List (String × MetricsData))

/-- Actor node relevant to metrics(): its name, the map returned by its
metrics0 user hook, its created children in creation order, and whether it
has been destroyed.  The runtime childPromises list no longer contains a
destroyed child (createChild removes it on the destroyed event), which the
metrics fold below mirrors by skipping destroyed children. -/
inductive MActor where
  | mk (name : String) (own : List (String × MetricsData)) (children : List MActor)
      (destroyed : Bool)

/-- Name of a metrics-model actor. -/
def MActor.name : MActor → String
  | MActor.mk n _ _ _ => n

/-- Metrics returned by the metrics0 hook of a metrics-model actor. -/
def MActor.ownMetrics : MActor → List (String × MetricsData)
  | MActor.mk _ o _ _ => o

/-- Children of a metrics-model actor, in creation order. -/
def MActor.childList : MActor → List MActor
  | MActor.mk _ _ cs _ => cs

/-- Destroyed flag of a metrics-model actor. -/
def MActor.destroyed : MActor → Bool
  | MActor.mk _ _ _ d => d

/-- JS object assignment memo[k] = v on an association list: overwrite in
place when the key exists, append otherwise. -/
def objSet : List (String × MetricsData) → String → MetricsData → List (String × MetricsData)
  | [], k, v => [(k, v)]
  | (k0, v0) :: rest, k, v =>
    if k0 = k then (k, v) :: rest else (k0, v0) :: objSet rest k v

mutual
/-- Actor.metrics from the source: start from the metrics0 result (the
empty object when it is empty) and P.reduce over the children, assigning
memo[child.getName()] = child.metrics(); destroyed children are no longer
in childPromises and are skipped. -/
def MActor.metrics : MActor → List (String × MetricsData)
  | MActor.mk _ own cs _ => metricsFold cs (if own.isEmpty then [] else own)

/-- P.reduce step over a child list for Actor.metrics. -/
def metricsFold : List MActor → List (String × MetricsData) → List (String × MetricsData)
  | [], memo => memo
  | c :: rest, memo =>
    if c.destroyed then metricsFold rest memo
    else metricsFold rest (objSet memo c.name (MetricsData.table c.metrics))
end

/-- Self part of the metrics result (ret in the source: the metrics0 map,
or the empty object when that map is empty). -/
def MActor.selfPart : MActor → List (String × MetricsData)
  | MActor.mk _ own _ _ => if own.isEmpty then [] else own

/-- Children of an actor that have not been destroyed (the content of
childPromises after destroyed-event removal). -/
def MActor.liveChildren : MActor → List MActor
  | MActor.mk _ _ cs _ => cs.filter (fun c => !c.destroyed)

/-- Module state around ActorSystem: the module-level defaultSystem
variable (systems are identified by a creation counter) and the counter
modelling construction of fresh ActorSystem instances. -/
structure DefaultSystemState where
  defaultSystem : Option Nat
  nextSystemId : Nat
deriving DecidableEq, Repr

/-- Static ActorSystem.default as written in the source:
if (defaultSystem) defaultSystem = new ActorSystem(); return defaultSystem.
Result: (module state after the call, returned value). -/
def ActorSystem.defaultCall (g : DefaultSystemState) : DefaultSystemState × Option Nat :=
  if g.defaultSystem.isSome then
    let g2 : DefaultSystemState := ⟨some g.nextSystemId, g.nextSystemId + 1⟩
    (g2, g2.defaultSystem)
  else
    (g, g.defaultSystem)

/-- Per-endpoint state of a ForkedActor: this.idCounter (starts at 1), the
key set of the this.responsePromises object (one pending waiter per key)
and this.timeouts, a list of (deadline, msgId) pairs kept ordered by
deadline. -/
structure ForkedState where
  idCounter : Nat
  responsePromises : List Nat
  timeouts : List (Nat × Nat)
deriving DecidableEq, Repr

/-- JS object key insertion responsePromises[id] = waiter: a fresh key is
appended, an existing key keeps its position. -/
def objInsertKey (rp : List Nat) (id : Nat) : List Nat :=
  if id ∈ rp then rp else rp ++ [id]

/-- JS delete responsePromises[id]: the key is removed. -/
def objDeleteKey (rp : List Nat) (id : Nat) : List Nat :=
  rp.filter (fun k => k != id)

/-- Insertion at the index computed by _.sortedIndex(timeouts, obj,
"timeout"): the smallest position keeping the list sorted by deadline. -/
def sortedInsertTimeout : List (Nat × Nat) → Nat × Nat → List (Nat × Nat)
  | [], x => [x]
  | y :: rest, x =>
    if x.1 ≤ y.1 then x :: y :: rest else y :: sortedInsertTimeout rest x

/-- ForkedActor._send0 from the source, for a message without a socket
handle.  presetId = 0 models a falsy msg.id (the id is then allocated from
this.idCounter++); timeout = 0 models an absent or non-positive
options.timeout.  When options.receive is set, a pending waiter is stored
under the message id and, for a positive timeout, (now + timeout, id) is
inserted into the deadline-ordered timeout list.  Result: (new state,
message id used on the wire). -/
def ForkedActor.send0Model (s : ForkedState) (presetId : Nat) (receive : Bool)
    (timeout now : Nat) : ForkedState × Nat :=
  let alloc : Nat × ForkedState :=
    if presetId = 0 then (s.idCounter, { s with idCounter := s.idCounter + 1 })
    else (presetId, s)
  let msgId := alloc.1
  let s1 := alloc.2
  if receive then
    let s2 := { s1 with responsePromises := objInsertKey s1.responsePromises msgId }
    let s3 :=
      if 0 < timeout then
        { s2 with timeouts := sortedInsertTimeout s2.timeouts (now + timeout, msgId) }
      else s2
    (s3, msgId)
  else (s1, msgId)

/-- Observable events on the waiter table: a waiter rejected by the timeout
worker, a waiter completed by an arriving response envelope, or the warning
logged when a response has no pending waiter (the response is discarded). -/
inductive BusEvent where
  | timedOut (msgId : Nat) (errMsg : String)
  | delivered (msgId : Nat)
  | noPendingWarn (msgId : Nat)
deriving DecidableEq, Repr

/-- While-loop body of the timeout worker in the ForkedActor constructor:
while the head deadline has elapsed, shift it, delete its pending waiter
and reject the waiter (when one exists) with "Response timed out.".
Result: (remaining timeouts, remaining waiter keys, events). -/
def tickLoop (now : Nat) : List (Nat × Nat) → List Nat → List (Nat × Nat) × List Nat × List BusEvent
  | [], rp => ([], rp, [])
  | (dl, msgId) :: rest, rp =>
    if dl ≤ now then
      let fired :=
        if msgId ∈ rp then [BusEvent.timedOut msgId "Response timed out."] else []
      let r := tickLoop now rest (objDeleteKey rp msgId)
      (r.1, r.2.1, fired ++ r.2.2)
    else ((dl, msgId) :: rest, rp, [])

/-- One run of the 1-second setInterval timeout worker. -/
def ForkedActor.timeoutWorkerTick (now : Nat) (s : ForkedState) : ForkedState × List BusEvent :=
  let r := tickLoop now s.timeouts s.responsePromises
  ({ s with timeouts := r.1, responsePromises := r.2.1 }, r.2.2)

/-- Handling of an inbound actor-response envelope with a truthy id in
ForkedActor._setBus: take the pending waiter, delete it, complete it; when
no waiter is pending, only warn, so the response is discarded. -/
def ForkedActor.handleResponse (msgId : Nat) (s : ForkedState) : ForkedState × List BusEvent :=
  if msgId ∈ s.responsePromises then
    ({ s with responsePromises := objDeleteKey s.responsePromises msgId },
      [BusEvent.delivered msgId])
  else (s, [BusEvent.noPendingWarn msgId])

/-- Runtime values passed as variadic message arguments, together with the
wire forms marshalling produces.  actor is a live actor reference
(instanceof Actor), refToken its wire token, custom an instance of a user
type with the given constructor name, customWire a wire value produced by
a user marshaller.  Listening-server handles travel outside the marshalling
pipeline and are not modelled. -/
inductive MVal where
  | num (n : Int)
  | str (s : String)
  | actor (id : Nat)
  | refToken (id : Nat)
  | custom (typeName : String) (payload : Int)
  | customWire (payload : Int)
deriving DecidableEq, Repr

/-- Constructor type name used by ActorSystem._typeName for registry
lookup. -/
def MVal.typeName : MVal → String
  | MVal.num _ => "Number"
  | MVal.str _ => "String"
  | MVal.actor _ => "Actor"
  | MVal.refToken _ => "InterProcessReference"
  | MVal.custom t _ => t
  | MVal.customWire _ => "Object"

/-- Example actor used by the forwarding witness. -/
def exampleFwdActor : Actor :=
  { definitionHasHandler := fun t => t == "known"
    forwardAllUnknown := some 9
    forwardList := [(Matcher.str "known", 4), (Matcher.regex (fun t => t == "abc"), 5)]
    state := ActorState.ready }

/-- Example actor still in the new state, used by the not-ready witness. -/
def exampleNewActor : Actor :=
  { definitionHasHandler := fun _ => false
    forwardAllUnknown := none
    forwardList := []
    state := ActorState.new }

/-- Example actor tree used by destruction witnesses: a root with one child
and one grandchild. -/
def exampleTree : ActorTree :=
  ActorTree.node 0 [ActorTree.node 1 [ActorTree.node 2 []]]

/-- Example metrics child Child1, alive. -/
def exampleChild1 : MActor :=
  MActor.mk "Child1" [("childMetric", MetricsData.leaf 222)] [] false

/-- Example metrics child Child2, destroyed. -/
def exampleChild2 : MActor :=
  MActor.mk "Child2" [("childMetric", MetricsData.leaf 333)] [] true

/-- Example metrics parent with the two children above. -/
def exampleParent : MActor :=
  MActor.mk "" [("parentMetric", MetricsData.leaf 111)] [exampleChild1, exampleChild2] false

/-- Example forked-endpoint state used by the correlation witness. -/
def exampleForkedState : ForkedState := ⟨5, [1, 3], []⟩

/-- Example forked-endpoint state used by the timeout witness: one waiter
pending under id 2 with deadline 5. -/
def exampleTimeoutState : ForkedState := ⟨3, [2], [(5, 2)]⟩

theorem find_firstForwardTarget (l : List (Matcher × Nat)) (topic : String) :
    (match l.find? (fun item => matcherMatches item.1 topic) with
     | some item => some item.2
     | none => none) = firstForwardTarget l topic := by
  induction l with
  | nil => rfl
  | cons hd tl ih =>
    cases hd with
    | mk m r =>
      cases h : matcherMatches m topic with
      | true =>
        rw [List.find?_cons_of_pos _ (by simpa using h)]
        simp [firstForwardTarget, h]
      | false =>
        rw [List.find?_cons_of_neg _ (by simpa using h)]
        rw [firstForwardTarget]
        simp only [h, if_false]
        exact ih

/-- C1: for a ready actor, when forwardAllUnknown is set and the behaviour
has no handler for the topic, send and sendAndReceive delegate to the
forwardAllUnknown reference with the variadic arguments preserved; in every
other situation (forwardAllUnknown unset, or an explicit handler exists)
the forward list governs, and a topic matching it (string matchers by
equality, regex matchers by test) is delegated to the target of the first
matching entry in insertion order, again preserving the arguments. -/
theorem c1_forwarding {α : Type} (a : Actor) (topic : String) (args : List α)
    (hready : a.state = ActorState.ready) :
    (∀ p, a.forwardAllUnknown = some p → a.definitionHasHandler topic = false →
      Actor.send a topic args = SendResult.forwarded p topic args
      ∧ Actor.sendAndReceive a topic args = SendResult.forwarded p topic args)
    ∧ ((a.forwardAllUnknown = none ∨ a.definitionHasHandler topic = true) →
      ∀ tgt, firstForwardTarget a.forwardList topic = some tgt →
        Actor.send a topic args = SendResult.forwarded tgt topic args
        ∧ Actor.sendAndReceive a topic args = SendResult.forwarded tgt topic args) := by
  have hsd : (a.state != ActorState.ready) = false := by simp [hready]
  constructor
  · intro p hp hh
    have hcf : a.checkForward topic = some p := by
      simp [Actor.checkForward, hp, hh]
    constructor <;> simp [Actor.send, Actor.sendAndReceive, hsd, hcf]
  · intro hor tgt htgt
    have hcond : (a.forwardAllUnknown.isSome && !(a.definitionHasHandler topic)) = false := by
      cases hor with
      | inl h => simp [h]
      | inr h => simp [h]
    have hcf : a.checkForward topic = some tgt := by
      rw [Actor.checkForward]
      simp only [hcond, Bool.false_eq_true, if_false]
      rw [find_firstForwardTarget]
      exact htgt
    constructor <;> simp [Actor.send, Actor.sendAndReceive, hsd, hcf]

theorem c1_forwarding_witness :
    (Actor.send exampleFwdActor "other" ([0] : List Nat) = SendResult.forwarded 9 "other" [0]
      ∧ Actor.sendAndReceive exampleFwdActor "other" ([0] : List Nat) = SendResult.forwarded 9 "other" [0])
    ∧ (Actor.send exampleFwdActor "known" ([1] : List Nat) = SendResult.forwarded 4 "known" [1]
      ∧ Actor.sendAndReceive exampleFwdActor "known" ([1] : List Nat) = SendResult.forwarded 4 "known" [1]) :=
  ⟨(c1_forwarding exampleFwdActor "other" [0] rfl).1 9 rfl rfl,
   (c1_forwarding exampleFwdActor "known" [1] rfl).2 (Or.inr rfl) 4 rfl⟩

/-- C3: for an actor in any state other than ready, send and sendAndReceive
reject with the not-ready error whose message depends on the state; the
message for the new state (before initialization completes) contains
"Actor has not yet been initialized", and the crashed, destroying and
destroyed states have their own messages. -/
theorem c3_not_ready {α : Type} (a : Actor) (topic : String) (args : List α)
    (h : a.state ≠ ActorState.ready) :
    Actor.send a topic args = SendResult.rejected (notReadyErrorMessage a.state)
    ∧ Actor.sendAndReceive a topic args = SendResult.rejected (notReadyErrorMessage a.state)
    ∧ notReadyErrorMessage ActorState.new = "Actor has not yet been initialized."
    ∧ strContainsSub (notReadyErrorMessage ActorState.new) "Actor has not yet been initialized" = true
    ∧ notReadyErrorMessage ActorState.crashed = "Actor crashed, no interaction possible."
    ∧ notReadyErrorMessage ActorState.destroying
        = "destroy() has been called for this actor, no further interaction possible"
    ∧ notReadyErrorMessage ActorState.destroyed
        = "destroy() has been called for this actor, no further interaction possible" := by
  have hb : (a.state != ActorState.ready) = true := by simpa using h
  refine ⟨?_, ?_, rfl, by decide, rfl, rfl, rfl⟩ <;>
    simp [Actor.send, Actor.sendAndReceive, hb]

theorem c3_not_ready_witness :
    Actor.send exampleNewActor "greeting" ([] : List Nat)
        = SendResult.rejected (notReadyErrorMessage exampleNewActor.state)
    ∧ Actor.sendAndReceive exampleNewActor "greeting" ([] : List Nat)
        = SendResult.rejected (notReadyErrorMessage exampleNewActor.state)
    ∧ notReadyErrorMessage ActorState.new = "Actor has not yet been initialized."
    ∧ strContainsSub (notReadyErrorMessage ActorState.new) "Actor has not yet been initialized" = true
    ∧ notReadyErrorMessage ActorState.crashed = "Actor crashed, no interaction possible."
    ∧ notReadyErrorMessage ActorState.destroying
        = "destroy() has been called for this actor, no further interaction possible"
    ∧ notReadyErrorMessage ActorState.destroyed
        = "destroy() has been called for this actor, no further interaction possible" :=
  c3_not_ready exampleNewActor "greeting" [] (by decide)

mutual
theorem hookMemTree : ∀ (t : ActorTree), DestroyEvent.hook t.rootId ∈ destroyTrace t
  | ActorTree.node i cs => by
    show DestroyEvent.hook i ∈ destroyTraceList cs ++ [DestroyEvent.hook i, DestroyEvent.destroyedEvent i]
    exact List.mem_append_right _ (List.mem_cons_self _ _)

theorem hookMemList : ∀ (cs : List ActorTree) (d : ActorTree),
    d ∈ descendantsList cs → DestroyEvent.hook d.rootId ∈ destroyTraceList cs
  | ActorTree.node j ccs :: rest, d, hd => by
    have hd2 : d = ActorTree.node j ccs
        ∨ d ∈ ActorTree.descendants (ActorTree.node j ccs) ++ descendantsList rest := by
      simpa [descendantsList] using hd
    show DestroyEvent.hook d.rootId ∈ destroyTrace (ActorTree.node j ccs) ++ destroyTraceList rest
    rcases hd2 with heq | hmem
    · subst heq
      exact List.mem_append_left _ (hookMemTree (ActorTree.node j ccs))
    · rcases List.mem_append.mp hmem with hin | hin
      · have hin2 : d ∈ descendantsList ccs := by
          simpa [ActorTree.descendants] using hin
        have h3 := hookMemList ccs d hin2
        have h4 : DestroyEvent.hook d.rootId ∈ destroyTrace (ActorTree.node j ccs) := by
          show DestroyEvent.hook d.rootId
            ∈ destroyTraceList ccs ++ [DestroyEvent.hook j, DestroyEvent.destroyedEvent j]
          exact List.mem_append_left _ h3
        exact List.mem_append_left _ h4
      · exact List.mem_append_right _ (hookMemList rest d hin)
end

/-- C2: destruction is post-order.  The destroy trace of a tree is exactly
the concatenated traces of the children followed by the actor own destroy
hook and only then the destroyed transition and event; consequently the
destroy hook of every transitive descendant occurs before the actor own
hook, in the child part of the trace. -/
theorem c2_destroy_postorder (t : ActorTree) :
    destroyTrace t
      = destroyTraceList t.children
        ++ [DestroyEvent.hook t.rootId, DestroyEvent.destroyedEvent t.rootId]
    ∧ ∀ d ∈ t.descendants, DestroyEvent.hook d.rootId ∈ destroyTraceList t.children := by
  cases t with
  | node i cs =>
    constructor
    · rfl
    · intro d hd
      exact hookMemList cs d (by simpa [ActorTree.descendants] using hd)

theorem c2_destroy_postorder_witness :
    destroyTrace exampleTree
      = destroyTraceList exampleTree.children
        ++ [DestroyEvent.hook exampleTree.rootId, DestroyEvent.destroyedEvent exampleTree.rootId]
    ∧ DestroyEvent.hook (ActorTree.node 2 []).rootId ∈ destroyTraceList exampleTree.children :=
  ⟨(c2_destroy_postorder exampleTree).1,
   (c2_destroy_postorder exampleTree).2 (ActorTree.node 2 [])
     (by simp [exampleTree, ActorTree.descendants, descendantsList])⟩

/-- C8 counterexample: for a parent (id 0) with two children created in the
order 1 then 2, the destroy hooks run in insertion order 1, 2, 0 — not in
reverse insertion order 2, 1, 0 as the claim states. -/
theorem c8_counterexample :
    hookIds (destroyTrace (ActorTree.node 0 [ActorTree.node 1 [], ActorTree.node 2 []]))
      = [1, 2, 0]
    ∧ ([1, 2, 0] : List Nat) ≠ [2, 1, 0] :=
  ⟨rfl, by decide⟩

theorem hookIds_append (l1 l2 : List DestroyEvent) :
    hookIds (l1 ++ l2) = hookIds l1 ++ hookIds l2 := by
  simp [hookIds, List.filterMap_append]

theorem hookIds_traceList_leaves :
    ∀ cs : List ActorTree, (∀ c ∈ cs, c.children = []) →
      hookIds (destroyTraceList cs) = cs.map ActorTree.rootId := by
  intro cs
  induction cs with
  | nil =>
    intro _
    rfl
  | cons c rest ih =>
    intro h
    show hookIds (destroyTrace c ++ destroyTraceList rest)
      = c.rootId :: rest.map ActorTree.rootId
    rw [hookIds_append]
    have hct : destroyTrace c
        = [DestroyEvent.hook c.rootId, DestroyEvent.destroyedEvent c.rootId] := by
      cases c with
      | node i cs2 =>
        have h2 : cs2 = [] := h (ActorTree.node i cs2) (List.mem_cons_self _ _)
        subst h2
        rfl
    rw [hct, ih (fun b hb => h b (List.mem_cons_of_mem c hb))]
    rfl

/-- C8 amended: destroy() completes the destruction of all children before
the user destroy hook of the parent is invoked (the parent chain awaits
every child destroy promise before this.destroy0()), and the order is not
reverse insertion order: the child destroy() calls are issued by P.map in
forward array order, so when the children are leaf actors their destroy
hooks fire in insertion order, the first created child first.  Sibling
subtrees with deeper descendants are destroyed concurrently, and no order
is asserted among their inner hooks. -/
theorem c8_amended (t : ActorTree)
    (hleaves : ∀ c ∈ t.children, c.children = []) :
    destroyTrace t
      = destroyTraceList t.children
        ++ [DestroyEvent.hook t.rootId, DestroyEvent.destroyedEvent t.rootId]
    ∧ hookIds (destroyTrace t) = t.children.map ActorTree.rootId ++ [t.rootId] := by
  cases t with
  | node i cs =>
    refine ⟨rfl, ?_⟩
    show hookIds (destroyTraceList cs ++ [DestroyEvent.hook i, DestroyEvent.destroyedEvent i])
      = cs.map ActorTree.rootId ++ [i]
    rw [hookIds_append, hookIds_traceList_leaves cs hleaves]
    rfl

theorem c8_amended_witness :
    destroyTrace (ActorTree.node 0 [ActorTree.node 1 [], ActorTree.node 2 []])
      = destroyTraceList (ActorTree.node 0 [ActorTree.node 1 [], ActorTree.node 2 []]).children
        ++ [DestroyEvent.hook 0, DestroyEvent.destroyedEvent 0]
    ∧ hookIds (destroyTrace (ActorTree.node 0 [ActorTree.node 1 [], ActorTree.node 2 []]))
        = [ActorTree.node 1 [], ActorTree.node 2 []].map ActorTree.rootId ++ [0] :=
  c8_amended (ActorTree.node 0 [ActorTree.node 1 [], ActorTree.node 2 []])
    (by
      intro c hc
      rcases List.mem_cons.mp hc with rfl | hc2
      · rfl
      · rcases List.mem_cons.mp hc2 with rfl | hc3
        · rfl
        · exact absurd hc3 (List.not_mem_nil c))

theorem iterateDestroy_cached (t : ActorTree) (p : List DestroyEvent) :
    ∀ n : Nat, iterateDestroy t n ⟨some p⟩ = (List.replicate n (p, []), ⟨some p⟩) := by
  intro n
  induction n with
  | zero => rfl
  | succ k ih => simp [iterateDestroy, destroyCall, ih, List.replicate_succ]

/-- C10: destroy() is idempotent.  Starting from an actor whose
destroyPromise is unset, a sequence of n + 1 destroy() calls performs the
destruction trace exactly once: the first call returns and performs the
trace, and every later call returns the very same memoized promise while
performing no event at all. -/
theorem c10_destroy_idempotent (t : ActorTree) (n : Nat) :
    (iterateDestroy t (n + 1) ⟨none⟩).1
      = (destroyTrace t, destroyTrace t)
        :: List.replicate n (destroyTrace t, ([] : List DestroyEvent)) := by
  simp [iterateDestroy, destroyCall, iterateDestroy_cached]

theorem objSet_of_not_mem (memo : List (String × MetricsData)) (k : String) (v : MetricsData)
    (hk : k ∉ memo.map Prod.fst) : objSet memo k v = memo ++ [(k, v)] := by
  induction memo with
  | nil => rfl
  | cons hd tl ih =>
    cases hd with
    | mk k0 v0 =>
      simp only [List.map_cons, List.mem_cons] at hk
      push_neg at hk
      rw [objSet, if_neg (fun h => hk.1 h.symm), ih hk.2]
      rfl

theorem metricsFold_spec (cs : List MActor) :
    ∀ memo : List (String × MetricsData),
      (memo.map Prod.fst ++ (cs.filter (fun c => !c.destroyed)).map MActor.name).Nodup →
      metricsFold cs memo
        = memo ++ (cs.filter (fun c => !c.destroyed)).map
            (fun c => (c.name, MetricsData.table c.metrics)) := by
  induction cs with
  | nil =>
    intro memo _
    simp [metricsFold]
  | cons c rest ih =>
    intro memo h
    cases hd : c.destroyed with
    | true =>
      have hfe : (c :: rest).filter (fun x => !x.destroyed)
          = rest.filter (fun x => !x.destroyed) := by
        simp [List.filter_cons, hd]
      rw [hfe] at h ⊢
      rw [metricsFold, if_pos hd]
      exact ih memo h
    | false =>
      have hfe : (c :: rest).filter (fun x => !x.destroyed)
          = c :: rest.filter (fun x => !x.destroyed) := by
        simp [List.filter_cons, hd]
      rw [hfe] at h ⊢
      simp only [List.map_cons] at h
      have hcnotin : c.name ∉ memo.map Prod.fst := by
        rcases List.nodup_append.mp h with ⟨_, _, hdisj⟩
        intro hmem
        exact hdisj hmem (List.mem_cons_self _ _)
      rw [metricsFold, if_neg (by simp [hd])]
      rw [objSet_of_not_mem _ _ _ hcnotin]
      have hnext : ((memo ++ [(c.name, MetricsData.table c.metrics)]).map Prod.fst
          ++ (rest.filter (fun x => !x.destroyed)).map MActor.name).Nodup := by
        simpa [List.append_assoc] using h
      rw [ih _ hnext]
      simp [List.append_assoc]

/-- C7: metrics() returns the metrics0 map of the actor itself, extended
with exactly one key per non-destroyed child, mapping the child name to the
child recursively computed metrics; destroyed children contribute no key
(provided the child names and own metric keys are pairwise distinct, as JS
object keys collapse duplicates). -/
theorem c7_metrics (a : MActor)
    (h : (a.selfPart.map Prod.fst ++ a.liveChildren.map MActor.name).Nodup) :
    a.metrics = a.selfPart ++ a.liveChildren.map (fun c => (c.name, MetricsData.table c.metrics))
    ∧ a.metrics.map Prod.fst = a.selfPart.map Prod.fst ++ a.liveChildren.map MActor.name := by
  cases a with
  | mk n own cs d =>
    have h0 : (MActor.mk n own cs d).selfPart = (if own.isEmpty then [] else own) := rfl
    have h1 : (MActor.mk n own cs d).liveChildren = cs.filter (fun c => !c.destroyed) := rfl
    have h2 : MActor.metrics (MActor.mk n own cs d)
        = metricsFold cs (if own.isEmpty then [] else own) := rfl
    have hmain := metricsFold_spec cs (if own.isEmpty then [] else own)
      (by rw [h0, h1] at h; exact h)
    constructor
    · rw [h2, hmain, h0, h1]
    · rw [h2, hmain, h0, h1]
      simp [List.map_append, List.map_map, Function.comp]

theorem c7_metrics_witness :
    MActor.metrics exampleParent
      = exampleParent.selfPart
        ++ exampleParent.liveChildren.map (fun c => (c.name, MetricsData.table c.metrics))
    ∧ (MActor.metrics exampleParent).map Prod.fst
      = exampleParent.selfPart.map Prod.fst ++ exampleParent.liveChildren.map MActor.name :=
  c7_metrics exampleParent (by decide)

/-- C9: evaluation of the source ActorSystem.default at concrete module
states.  On the first call (defaultSystem unset) nothing is constructed or
stored and undefined is returned; once the variable is somehow truthy,
every call constructs and returns a fresh ActorSystem instead of the stored
instance.  This contradicts the claimed lazy one-shot singleton
semantics. -/
theorem c9_default_not_lazy_singleton :
    (ActorSystem.defaultCall ⟨none, 0⟩).2 = none
    ∧ (ActorSystem.defaultCall ⟨none, 0⟩).1 = ⟨none, 0⟩
    ∧ (ActorSystem.defaultCall ⟨some 0, 1⟩).2 = some 1
    ∧ (ActorSystem.defaultCall ⟨some 1, 2⟩).2 = some 2 := by
  decide

theorem mem_objDeleteKey (rp : List Nat) (k i : Nat) :
    k ∈ objDeleteKey rp i ↔ k ∈ rp ∧ k ≠ i := by
  simp [objDeleteKey, List.mem_filter]

theorem tickLoop_not_mem (now : Nat) :
    ∀ (ts : List (Nat × Nat)) (rp : List Nat) (k : Nat),
      k ∉ rp → k ∉ (tickLoop now ts rp).2.1 := by
  intro ts
  induction ts with
  | nil =>
    intro rp k hk
    simpa [tickLoop] using hk
  | cons hd rest ih =>
    intro rp k hk
    cases hd with
    | mk dl i0 =>
      by_cases hdl : dl ≤ now
      · simp only [tickLoop, if_pos hdl]
        exact ih (objDeleteKey rp i0) k (fun hm => hk ((mem_objDeleteKey rp k i0).mp hm).1)
      · simpa [tickLoop, hdl] using hk

theorem tickLoop_fires (now : Nat) :
    ∀ (ts : List (Nat × Nat)) (rp : List Nat) (dl msgId : Nat),
      List.Pairwise (fun a b => a.1 ≤ b.1) ts →
      (ts.map Prod.snd).Nodup →
      (dl, msgId) ∈ ts → dl ≤ now → msgId ∈ rp →
      BusEvent.timedOut msgId "Response timed out." ∈ (tickLoop now ts rp).2.2
      ∧ msgId ∉ (tickLoop now ts rp).2.1 := by
  intro ts
  induction ts with
  | nil =>
    intro rp dl msgId _ _ hmem
    exact absurd hmem (List.not_mem_nil _)
  | cons hd rest ih =>
    intro rp dl msgId hsorted hnodup hmem hdl hpending
    cases hd with
    | mk d0 i0 =>
      rcases List.mem_cons.mp hmem with heq | htl
      · injection heq with h1 h2
        subst h1
        subst h2
        simp only [tickLoop, if_pos hdl, if_pos hpending]
        constructor
        · exact List.mem_append_left _ (List.mem_singleton.mpr rfl)
        · exact tickLoop_not_mem now rest (objDeleteKey rp msgId) msgId
            (by simp [mem_objDeleteKey])
      · rcases List.pairwise_cons.mp hsorted with ⟨hall, htail⟩
        have hd0now : d0 ≤ now := le_trans (hall (dl, msgId) htl) hdl
        have hnodup2 : (i0 :: rest.map Prod.snd).Nodup := by simpa using hnodup
        rcases List.nodup_cons.mp hnodup2 with ⟨hnotin, htailnodup⟩
        have hne : msgId ≠ i0 := by
          intro hcontra
          exact hnotin (hcontra ▸ List.mem_map_of_mem Prod.snd htl)
        have hpend2 : msgId ∈ objDeleteKey rp i0 := (mem_objDeleteKey rp msgId i0).mpr ⟨hpending, hne⟩
        have hrec := ih (objDeleteKey rp i0) dl msgId htail htailnodup htl hdl hpend2
        simp only [tickLoop, if_pos hd0now]
        exact ⟨List.mem_append_right _ hrec.1, hrec.2⟩

theorem mem_sortedInsertTimeout (x : Nat × Nat) :
    ∀ (ts : List (Nat × Nat)) (b : Nat × Nat),
      b ∈ sortedInsertTimeout ts x ↔ b = x ∨ b ∈ ts := by
  intro ts
  induction ts with
  | nil =>
    intro b
    simp [sortedInsertTimeout]
  | cons y rest ih =>
    intro b
    by_cases hle : x.1 ≤ y.1
    · rw [sortedInsertTimeout, if_pos hle]
      simp only [List.mem_cons]
    · rw [sortedInsertTimeout, if_neg hle]
      simp only [List.mem_cons, ih]
      tauto

theorem sortedInsert_pairwise (x : Nat × Nat) :
    ∀ ts : List (Nat × Nat),
      List.Pairwise (fun a b => a.1 ≤ b.1) ts →
      List.Pairwise (fun a b => a.1 ≤ b.1) (sortedInsertTimeout ts x) := by
  intro ts
  induction ts with
  | nil =>
    intro _
    simp [sortedInsertTimeout]
  | cons y rest ih =>
    intro h
    rcases List.pairwise_cons.mp h with ⟨hall, htail⟩
    by_cases hle : x.1 ≤ y.1
    · rw [sortedInsertTimeout, if_pos hle]
      refine List.pairwise_cons.mpr ⟨?_, h⟩
      intro b hb
      rcases List.mem_cons.mp hb with rfl | hb2
      · exact hle
      · exact le_trans hle (hall b hb2)
    · rw [sortedInsertTimeout, if_neg hle]
      refine List.pairwise_cons.mpr ⟨?_, ih htail⟩
      intro b hb
      rcases (mem_sortedInsertTimeout x rest b).mp hb with rfl | hb2
      · exact le_of_not_le hle
      · exact hall b hb2

/-- C4: for a pending sendAndReceive waiter whose deadline has elapsed with
no response arrived, a run of the timeout worker rejects the waiter with
the error "Response timed out." and removes the pending-response entry, so
a response envelope arriving afterwards finds no pending waiter and is
discarded with only a warning; moreover a send with a positive timeout
keeps the timeout list deadline-ordered, as the worker polling requires. -/
theorem c4_timeout (s : ForkedState) (now dl msgId : Nat)
    (hsorted : List.Pairwise (fun a b => a.1 ≤ b.1) s.timeouts)
    (hids : (s.timeouts.map Prod.snd).Nodup)
    (hmem : (dl, msgId) ∈ s.timeouts)
    (hdl : dl ≤ now)
    (hpending : msgId ∈ s.responsePromises) :
    BusEvent.timedOut msgId "Response timed out." ∈ (ForkedActor.timeoutWorkerTick now s).2
    ∧ msgId ∉ ((ForkedActor.timeoutWorkerTick now s).1).responsePromises
    ∧ ForkedActor.handleResponse msgId (ForkedActor.timeoutWorkerTick now s).1
        = ((ForkedActor.timeoutWorkerTick now s).1, [BusEvent.noPendingWarn msgId])
    ∧ ∀ t2 : Nat, 0 < t2 →
        List.Pairwise (fun a b => a.1 ≤ b.1)
          ((ForkedActor.send0Model s 0 true t2 now).1).timeouts := by
  obtain ⟨hev, hnm⟩ :=
    tickLoop_fires now s.timeouts s.responsePromises dl msgId hsorted hids hmem hdl hpending
  have hnm2 : msgId ∉ ((ForkedActor.timeoutWorkerTick now s).1).responsePromises := hnm
  refine ⟨hev, hnm2, ?_, ?_⟩
  · rw [ForkedActor.handleResponse, if_neg hnm2]
  · intro t2 ht2
    have hts : ((ForkedActor.send0Model s 0 true t2 now).1).timeouts
        = sortedInsertTimeout s.timeouts (now + t2, s.idCounter) := by
      simp [ForkedActor.send0Model, ht2]
    rw [hts]
    exact sortedInsert_pairwise _ s.timeouts hsorted

theorem c4_timeout_witness :
    BusEvent.timedOut 2 "Response timed out."
        ∈ (ForkedActor.timeoutWorkerTick 10 exampleTimeoutState).2
    ∧ 2 ∉ ((ForkedActor.timeoutWorkerTick 10 exampleTimeoutState).1).responsePromises
    ∧ ForkedActor.handleResponse 2 (ForkedActor.timeoutWorkerTick 10 exampleTimeoutState).1
        = ((ForkedActor.timeoutWorkerTick 10 exampleTimeoutState).1, [BusEvent.noPendingWarn 2])
    ∧ ∀ t2 : Nat, 0 < t2 →
        List.Pairwise (fun a b => a.1 ≤ b.1)
          ((ForkedActor.send0Model exampleTimeoutState 0 true t2 10).1).timeouts :=
  c4_timeout exampleTimeoutState 10 5 2 (by simp [exampleTimeoutState])
    (by simp [exampleTimeoutState]) (by simp [exampleTimeoutState]) (by decide)
    (by simp [exampleTimeoutState])

theorem objInsertKey_not_mem (rp : List Nat) (id : Nat) (h : id ∉ rp) :
    objInsertKey rp id = rp ++ [id] := by
  simp [objInsertKey, h]

theorem send0Model_components (s : ForkedState) (receive : Bool) (timeout now : Nat) :
    (ForkedActor.send0Model s 0 receive timeout now).2 = s.idCounter
    ∧ ((ForkedActor.send0Model s 0 receive timeout now).1).idCounter = s.idCounter + 1
    ∧ ((ForkedActor.send0Model s 0 receive timeout now).1).responsePromises
        = (if receive then objInsertKey s.responsePromises s.idCounter
           else s.responsePromises) := by
  cases receive <;> by_cases ht : 0 < timeout <;> simp [ForkedActor.send0Model, ht]

/-- C5: an envelope sent by _send0 without a preset id is assigned the
current value of the per-endpoint counter, which is strictly incremented by
the call; the assigned id is never one with a pending response (so a
correlation id is not reused while outstanding), and the pending-response
key set stays duplicate-free and bounded by the counter. -/
theorem c5_correlation (s : ForkedState) (receive : Bool) (timeout now : Nat)
    (hinv : ∀ i ∈ s.responsePromises, i < s.idCounter)
    (hnodup : s.responsePromises.Nodup) :
    (ForkedActor.send0Model s 0 receive timeout now).2 = s.idCounter
    ∧ s.idCounter ∉ s.responsePromises
    ∧ ((ForkedActor.send0Model s 0 receive timeout now).1).idCounter = s.idCounter + 1
    ∧ (∀ i ∈ ((ForkedActor.send0Model s 0 receive timeout now).1).responsePromises,
        i < ((ForkedActor.send0Model s 0 receive timeout now).1).idCounter)
    ∧ ((ForkedActor.send0Model s 0 receive timeout now).1).responsePromises.Nodup := by
  have hfresh : s.idCounter ∉ s.responsePromises := fun hmem => lt_irrefl _ (hinv _ hmem)
  obtain ⟨h1, h2, h3⟩ := send0Model_components s receive timeout now
  have happ : objInsertKey s.responsePromises s.idCounter
      = s.responsePromises ++ [s.idCounter] := objInsertKey_not_mem _ _ hfresh
  refine ⟨h1, hfresh, h2, ?_, ?_⟩
  · intro i hi
    rw [h2]
    rw [h3] at hi
    cases receive with
    | false => exact Nat.lt_succ_of_lt (hinv i (by simpa using hi))
    | true =>
      rw [if_pos rfl, happ] at hi
      rcases List.mem_append.mp hi with hl | hl
      · exact Nat.lt_succ_of_lt (hinv i hl)
      · rw [List.mem_singleton] at hl
        rw [hl]
        exact Nat.lt_succ_self _
  · rw [h3]
    cases receive with
    | false => simpa using hnodup
    | true =>
      rw [if_pos rfl, happ]
      refine List.nodup_append.mpr ⟨hnodup, List.nodup_singleton _, ?_⟩
      intro a ha hb
      rw [List.mem_singleton] at hb
      exact hfresh (hb ▸ ha)

theorem c5_correlation_witness :
    (ForkedActor.send0Model exampleForkedState 0 true 7 100).2 = exampleForkedState.idCounter
    ∧ exampleForkedState.idCounter ∉ exampleForkedState.responsePromises
    ∧ ((ForkedActor.send0Model exampleForkedState 0 true 7 100).1).idCounter
        = exampleForkedState.idCounter + 1
    ∧ (∀ i ∈ ((ForkedActor.send0Model exampleForkedState 0 true 7 100).1).responsePromises,
        i < ((ForkedActor.send0Model exampleForkedState 0 true 7 100).1).idCounter)
    ∧ ((ForkedActor.send0Model exampleForkedState 0 true 7 100).1).responsePromises.Nodup :=
  c5_correlation exampleForkedState true 7 100 (by decide) (by decide)

